import Mathlib

/-!
# Verification of the cotwit19 time-series pipeline

Shallow embedding of the core data pipeline of the `cotwit19` repository
(`src/index.ts`, which appears in two iterations, called variant A and
variant B below), together with theorems checking the specification's
claims about it.

Modelling conventions:
* A calendar date (a JS `Date` / `getTime()` millisecond count) is an `Int`.
* A `Timeline` (`[Date, number][]` in the source) is a `List (Int × Int)`,
  the first component being the date, the second the value.
* The `d3.timeParse("%d.%m.%Y")` date-parsing policy is an external
  collaborator and is passed in as a parameter `pt : String → Option Int`
  (`none` models a parse failure, which the source replaces by
  `new Date(0)`, i.e. date `0`).
* JS `Array.prototype.slice` / `findIndex` (which use `-1` and negative
  index conventions) are modelled by `jsSlice` / `jsFindIndex` over `Int`
  indices with the ECMAScript clamping rules.
* `Number(string)` is modelled by `jsNumber` on the fragment of numeric
  syntax the data uses: optional surrounding whitespace, an optional
  sign, and a nonempty digit run; the empty/whitespace-only string
  evaluates to `0` (a JS quirk), everything else is NaN (`none`).
* CSV rows are modelled as `(date cell, value cell)` string pairs, since
  the source destructures each row as `[date, value]` and ignores any
  further cells.
-/

/-- A timeline: an ordered list of (date, value) points, as in
`type Timeline = [Date, number][]`. -/
abbrev Timeline := List (Int × Int)

/-- The `Data` record of the source: three timelines keyed
`cases`, `recovered`, `deaths`. -/
structure Data where
  cases : Timeline
  recovered : Timeline
  deaths : Timeline
deriving DecidableEq, Repr

/-- The three recognized series keys (`keyof Data`). -/
inductive SeriesKey where
  | cases
  | recovered
  | deaths
deriving DecidableEq, Repr

/-- Whitespace characters trimmed by JS `Number` conversion. -/
def isSpaceChar (c : Char) : Bool :=
  c = ' ' || c = '\t' || c = '\n' || c = '\r'

/-- Value of a nonempty all-digit character run; `none` otherwise
(modelling NaN). -/
def digitsVal (l : List Char) : Option Int :=
  match l with
  | [] => none
  | _ =>
    if l.all Char.isDigit then
      some ((l.foldl (fun a c => a * 10 + (c.toNat - 48)) 0 : Nat) : Int)
    else none

/-- JS `Number(s)` on the modelled fragment: trim whitespace; empty
string is `0`; otherwise an optional sign followed by digits; anything
else is NaN (`none`). -/
def jsNumber (s : String) : Option Int :=
  let cs := ((s.toList.dropWhile isSpaceChar).reverse.dropWhile isSpaceChar).reverse
  match cs with
  | [] => some 0
  | '+' :: rest => digitsVal rest
  | '-' :: rest => (digitsVal rest).map Int.neg
  | _ => digitsVal cs

/-- `orZero` from the source: parse the cell with `Number`; if the result
is NaN return `0`, otherwise return the parsed number.  (All call sites
pass a string cell, so the string branch of the `number | string` union
is the one modelled.) -/
def orZero (s : String) : Int :=
  match jsNumber s with
  | some n => n
  | none => 0

/-- JS `Array.prototype.findIndex`: index of the first element satisfying
`p`, or `-1` if there is none. -/
def jsFindIndex {α : Type} (p : α → Bool) (l : List α) : Int :=
  match l.findIdx? p with
  | some i => (i : Int)
  | none => -1

/-- JS `Array.prototype.slice(start, stop)` with the ECMAScript rules:
negative indices count from the end, and both indices are clamped to
`[0, length]`. -/
def jsSlice {α : Type} (l : List α) (start stop : Int) : List α :=
  let len : Int := (l.length : Int)
  let s : Int := if start < 0 then max (len + start) 0 else min start len
  let e : Int := if stop < 0 then max (len + stop) 0 else min stop len
  (l.take e.toNat).drop s.toNat

/-- Substring occurrence test on character lists (`hasPre pat l` is true
when `pat` is a leading segment of `l`). -/
def hasPre : List Char → List Char → Bool
  | [], _ => true
  | _ :: _, [] => false
  | p :: ps, c :: cs => p = c && hasPre ps cs

/-- `occursIn pat l`: `pat` occurs as a contiguous segment of `l`. -/
def occursIn (pat : List Char) : List Char → Bool
  | [] => hasPre pat []
  | c :: cs => hasPre pat (c :: cs) || occursIn pat cs

/-- JS `s.indexOf(pat) >= 0`: `pat` occurs as a substring of `s`. -/
def strContains (s pat : String) : Bool :=
  occursIn pat.toList s.toList

/-- The date of a parsed cell: `parseTime(date) ?? new Date(0)`. -/
def parseDateOr0 (pt : String → Option Int) (s : String) : Int :=
  (pt s).getD 0

/-- Variant A cases builder (`index.ts`, first iteration):
`csv.slice(1).map(([date, value], idx, arr) => [parseTime(date) ?? new
Date(0), arr.slice(0, idx + 1).reduce((sum, [, value]) => sum +
orZero(value), 0)])` — for each index a fresh prefix of the header-less
array is summed. -/
def buildCasesA (pt : String → Option Int) (csv : List (String × String)) : Timeline :=
  let arr := csv.drop 1
  arr.enum.map (fun ip =>
    (parseDateOr0 pt ip.2.1,
     (arr.take (ip.1 + 1)).foldl (fun sum q => sum + orZero q.2) 0))

/-- Variant B cases builder (second iteration): a single accumulating
`reduce` that pushes `(parsed date, running sum)` per row. -/
def buildCasesB (pt : String → Option Int) (csv : List (String × String)) : Timeline :=
  ((csv.drop 1).foldl
    (fun (acc : Timeline × Int) q =>
      let sum := acc.2 + orZero q.2
      (acc.1 ++ [(parseDateOr0 pt q.1, sum)], sum))
    ([], 0)).1

/-- Builder for the already-cumulative series (`recovered`, `deaths`):
`csv.slice(1).map(([date, value]) => [parseTime(date) ?? new Date(0),
orZero(value)])`. -/
def buildPlain (pt : String → Option Int) (csv : List (String × String)) : Timeline :=
  (csv.drop 1).map (fun q => (parseDateOr0 pt q.1, orZero q.2))

/-- Date of the first point of a timeline (`timeline[0][0].getTime()`);
on an empty timeline the JS source would fault, the default `0` here is
never relied on (all theorems assume nonempty timelines). -/
def headDateD (tl : Timeline) : Int :=
  (tl.head?.getD (0, 0)).1

/-- Date of the last point of a timeline
(`timeline[timeline.length - 1][0]`); default as in `headDateD`. -/
def lastDateD (tl : Timeline) : Int :=
  (tl.getLast?.getD (0, 0)).1

/-- `firstDate` of both variants: `Math.max` of the three first dates. -/
def firstDateOf (t1 t2 t3 : Timeline) : Int :=
  max (max (headDateD t1) (headDateD t2)) (headDateD t3)

/-- `lastDate` of variant A: `Math.min` of the three last dates. -/
def lastDateA (t1 t2 t3 : Timeline) : Int :=
  min (min (lastDateD t1) (lastDateD t2)) (lastDateD t3)

/-- `lastDate` of variant B: the `reduce` with initial value `new Date()`
(the current date, passed in as `now`), keeping the smaller at each
step:
`csvs.reduce((date, [, timeline]) => last < date ? last : date, new Date())`. -/
def lastDateB (now : Int) (t1 t2 t3 : Timeline) : Int :=
  let s1 := if lastDateD t1 < now then lastDateD t1 else now
  let s2 := if lastDateD t2 < s1 then lastDateD t2 else s1
  if lastDateD t3 < s2 then lastDateD t3 else s2

/-- Variant A per-timeline truncation: first index with date `>=
firstDate`; last index found by scanning the reversed array for the
first date `< lastDate` (strict); then `slice(firstIndex, lastIndex + 1)`. -/
def truncA (a b : Int) (tl : Timeline) : Timeline :=
  let firstIndex := jsFindIndex (fun q => decide (a ≤ q.1)) tl
  let revLast := jsFindIndex (fun q => decide (q.1 < b)) tl.reverse
  let lastIndex := (tl.length : Int) - 1 - revLast
  jsSlice tl firstIndex (lastIndex + 1)

/-- Variant B per-timeline truncation: as `truncA` but the reverse scan
uses the inclusive comparison `date <= lastDate`. -/
def truncB (a b : Int) (tl : Timeline) : Timeline :=
  let firstIndex := jsFindIndex (fun q => decide (a ≤ q.1)) tl
  let revLast := jsFindIndex (fun q => decide (q.1 ≤ b)) tl.reverse
  let lastIndex := (tl.length : Int) - 1 - revLast
  jsSlice tl firstIndex (lastIndex + 1)

/-- Variant A timeline aligner: the common-window truncation the first
iteration's `end` handler applies to the three timelines. -/
def alignA (t1 t2 t3 : Timeline) : Timeline × Timeline × Timeline :=
  let a := firstDateOf t1 t2 t3
  let b := lastDateA t1 t2 t3
  (truncA a b t1, truncA a b t2, truncA a b t3)

/-- Variant B timeline aligner (second iteration), with the current date
`now` entering the `lastDate` computation. -/
def alignB (now : Int) (t1 t2 t3 : Timeline) : Timeline × Timeline × Timeline :=
  let a := firstDateOf t1 t2 t3
  let b := lastDateB now t1 t2 t3
  (truncB a b t1, truncB a b t2, truncB a b t3)

/-- Assign one keyed timeline into the accumulating `Data` record
(`acc[key] = ...` in the final `reduce`). -/
def setSeries (d : Data) (k : SeriesKey) (tl : Timeline) : Data :=
  match k with
  | SeriesKey.cases => ⟨tl, d.recovered, d.deaths⟩
  | SeriesKey.recovered => ⟨d.cases, tl, d.deaths⟩
  | SeriesKey.deaths => ⟨d.cases, d.recovered, tl⟩

/-- Variant A entry recognition (`zipfile.on("entry", ...)`): substring
match on the entry name chooses the series key and builder. -/
def recognizeA (pt : String → Option Int) (entry : String × List (String × String)) :
    Option (SeriesKey × Timeline) :=
  if strContains entry.1 "Epikurve" then
    some (SeriesKey.cases, buildCasesA pt entry.2)
  else if strContains entry.1 "GenesenTimeline" then
    some (SeriesKey.recovered, buildPlain pt entry.2)
  else if strContains entry.1 "TodesfaelleTimeline" then
    some (SeriesKey.deaths, buildPlain pt entry.2)
  else none

/-- Variant B entry recognition: same substring tests, the cases series
uses the accumulating builder, the other two share the plain builder. -/
def recognizeB (pt : String → Option Int) (entry : String × List (String × String)) :
    Option (SeriesKey × Timeline) :=
  if strContains entry.1 "Epikurve" then
    some (SeriesKey.cases, buildCasesB pt entry.2)
  else
    let key :=
      if strContains entry.1 "GenesenTimeline" then some SeriesKey.recovered
      else if strContains entry.1 "TodesfaelleTimeline" then some SeriesKey.deaths
      else none
    match key with
    | some k => some (k, buildPlain pt entry.2)
    | none => none

/-- Variant A `fetchData` core (the zip `end` handler): if exactly three
entries were recognized, compute the window over the three timelines (in
entry order) and resolve with the keyed, truncated `Data`; otherwise
reject (`none`).  The accumulator starts from the empty record `{}`,
modelled with empty timelines. -/
def fetchDataA (pt : String → Option Int)
    (entries : List (String × List (String × String))) : Option Data :=
  match entries.filterMap (recognizeA pt) with
  | [r1, r2, r3] =>
    let a := firstDateOf r1.2 r2.2 r3.2
    let b := lastDateA r1.2 r2.2 r3.2
    some (setSeries (setSeries (setSeries ⟨[], [], []⟩
      r1.1 (truncA a b r1.2)) r2.1 (truncA a b r2.2)) r3.1 (truncA a b r3.2))
  | _ => none

/-- Variant B `fetchData` core, with `lastDate` additionally bounded by
the current date `now` and the inclusive trailing comparison. -/
def fetchDataB (pt : String → Option Int) (now : Int)
    (entries : List (String × List (String × String))) : Option Data :=
  match entries.filterMap (recognizeB pt) with
  | [r1, r2, r3] =>
    let a := firstDateOf r1.2 r2.2 r3.2
    let b := lastDateB now r1.2 r2.2 r3.2
    some (setSeries (setSeries (setSeries ⟨[], [], []⟩
      r1.1 (truncB a b r1.2)) r2.1 (truncB a b r2.2)) r3.1 (truncB a b r3.2))
  | _ => none

/-- Dates are sorted (non-decreasing) along a timeline. -/
def DateSorted (tl : Timeline) : Prop :=
  List.Pairwise (fun p q : Int × Int => p.1 ≤ q.1) tl

instance (tl : Timeline) : Decidable (DateSorted tl) := by
  unfold DateSorted
  infer_instance

/-- Specification-side window filter, inclusive at both ends: the points
whose dates lie in `[a, b]`. -/
def winFilter (a b : Int) (tl : Timeline) : Timeline :=
  tl.filter (fun q => decide (a ≤ q.1) && decide (q.1 ≤ b))

/-- Specification-side half-open window filter: the points whose dates
lie in `[a, b)`. -/
def winFilterStrict (a b : Int) (tl : Timeline) : Timeline :=
  tl.filter (fun q => decide (a ≤ q.1) && decide (q.1 < b))

/-- Reference running-sum builder used in proofs: emit, per row, the
parsed date and the accumulator extended by the zero-substituted value. -/
def runSumAux (pt : String → Option Int) (c : Int) :
    List (String × String) → Timeline
  | [] => []
  | q :: rest =>
    (parseDateOr0 pt q.1, c + orZero q.2) :: runSumAux pt (c + orZero q.2) rest

/-- Sum of the zero-substituted values of the first `i + 1` rows. -/
def prefixValueSum (l : List (String × String)) (i : Nat) : Int :=
  ((l.take (i + 1)).map (fun q => orZero q.2)).sum

/-! ## Generic list lemmas used by the alignment proofs -/

theorem take_length_takeWhile {α : Type} (p : α → Bool) (l : List α) :
    l.take (l.takeWhile p).length = l.takeWhile p := by
  induction l with
  | nil => rfl
  | cons x xs ih =>
    by_cases hx : p x
    · simp [List.takeWhile_cons, hx, List.take_succ_cons, ih]
    · simp [List.takeWhile_cons, hx]

theorem drop_length_takeWhile {α : Type} (p : α → Bool) (l : List α) :
    l.drop (l.takeWhile p).length = l.dropWhile p := by
  induction l with
  | nil => rfl
  | cons x xs ih =>
    by_cases hx : p x
    · simp [List.takeWhile_cons, List.dropWhile_cons, hx, ih]
    · simp [List.takeWhile_cons, List.dropWhile_cons, hx]

theorem takeWhile_eq_filter_of_sorted {α : Type} {R : α → α → Prop} {p : α → Bool}
    (hp : ∀ x y, R x y → p y = true → p x = true) :
    ∀ {l : List α}, l.Pairwise R → l.takeWhile p = l.filter p := by
  intro l hl
  induction l with
  | nil => rfl
  | cons x xs ih =>
    rw [List.pairwise_cons] at hl
    by_cases hx : p x
    · simp [List.takeWhile_cons, List.filter_cons, hx, ih hl.2]
    · have hall : ∀ y ∈ xs, ¬ p y = true := fun y hy hpy =>
        hx (hp x y (hl.1 y hy) hpy)
      rw [List.takeWhile_cons, List.filter_cons, if_neg hx, if_neg hx]
      exact (List.filter_eq_nil_iff.mpr hall).symm

theorem dropWhile_eq_filter_not_of_sorted {α : Type} {R : α → α → Prop} {p : α → Bool}
    (hp : ∀ x y, R x y → p y = true → p x = true) :
    ∀ {l : List α}, l.Pairwise R → l.dropWhile p = l.filter (fun a => ! p a) := by
  intro l hl
  induction l with
  | nil => rfl
  | cons x xs ih =>
    rw [List.pairwise_cons] at hl
    by_cases hx : p x
    · simp [List.dropWhile_cons, List.filter_cons, hx, ih hl.2]
    · have hall : ∀ y ∈ xs, ¬ p y = true := fun y hy hpy =>
        hx (hp x y (hl.1 y hy) hpy)
      have hx' : (! p x) = true := by
        cases h : p x
        · rfl
        · exact absurd h hx
      rw [List.dropWhile_cons, if_neg hx, List.filter_cons, if_pos hx']
      congr 1
      exact (List.filter_eq_self.mpr (fun a ha => by
        cases h : p a
        · rfl
        · exact absurd h (hall a ha))).symm

theorem findIdx?_eq_takeWhile_length {α : Type} (p : α → Bool) :
    ∀ (l : List α) (i : Nat), (∃ x ∈ l, p x = true) →
      List.findIdx? p l i = some ((l.takeWhile (fun a => ! p a)).length + i) := by
  intro l
  induction l with
  | nil => intro i h; rcases h with ⟨x, hx, _⟩; cases hx
  | cons x xs ih =>
    intro i h
    rw [List.findIdx?_cons]
    by_cases hx : p x
    · simp [hx, List.takeWhile_cons]
    · have hxs : ∃ y ∈ xs, p y = true := by
        rcases h with ⟨y, hy, hpy⟩
        cases List.mem_cons.mp hy with
        | inl he => exact absurd (he ▸ hpy) hx
        | inr hm => exact ⟨y, hm, hpy⟩
      rw [if_neg hx, ih (i + 1) hxs]
      simp [List.takeWhile_cons, hx]
      omega

theorem jsFindIndex_eq_of_exists {α : Type} (p : α → Bool) (l : List α)
    (h : ∃ x ∈ l, p x = true) :
    jsFindIndex p l = (((l.takeWhile (fun a => ! p a)).length : Nat) : Int) := by
  unfold jsFindIndex
  rw [findIdx?_eq_takeWhile_length p l 0 h]
  simp

theorem jsSlice_ofNat {α : Type} (l : List α) (s e : Nat)
    (hs : s ≤ l.length) (he : e ≤ l.length) :
    jsSlice l (s : Int) (e : Int) = (l.take e).drop s := by
  unfold jsSlice
  have h1 : ¬ ((s : Int) < 0) := by omega
  have h2 : ¬ ((e : Int) < 0) := by omega
  have h3 : min (s : Int) (l.length : Int) = (s : Int) := by omega
  have h4 : min (e : Int) (l.length : Int) = (e : Int) := by omega
  simp only [if_neg h1, if_neg h2, h3, h4, Int.toNat_ofNat]

/-- The common core of the two truncation routines: with a date-sorted
timeline, a front scan for `date >= a`, a reverse scan for a
down-closed tail predicate `pT`, and the `slice`, the result is exactly
the filter by `a ≤ date` and `pT`. -/
theorem truncGen_eq_filter (a : Int) (pT : Int × Int → Bool) (tl : Timeline)
    (hs : DateSorted tl)
    (hdown : ∀ x y : Int × Int, x.1 ≤ y.1 → pT y = true → pT x = true)
    (hlow : ∀ q : Int × Int, q.1 < a → pT q = true)
    (hexa : ∃ q ∈ tl, a ≤ q.1)
    (hexT : ∃ q ∈ tl, pT q = true) :
    jsSlice tl (jsFindIndex (fun q => decide (a ≤ q.1)) tl)
      ((tl.length : Int) - 1 - jsFindIndex pT tl.reverse + 1)
    = tl.filter (fun q => decide (a ≤ q.1) && pT q) := by
  set pA : Int × Int → Bool := fun q => decide (a ≤ q.1) with hpA
  set n := tl.length with hn
  -- the front index
  have hexa' : ∃ q ∈ tl, pA q = true := by
    rcases hexa with ⟨q, hq, hle⟩
    exact ⟨q, hq, by simp [hpA, hle]⟩
  have hfi : jsFindIndex pA tl = ((tl.takeWhile (fun q => ! pA q)).length : Int) :=
    jsFindIndex_eq_of_exists pA tl hexa'
  set ta := (tl.takeWhile (fun q => ! pA q)).length with hta
  -- the reverse index
  have hexT' : ∃ q ∈ tl.reverse, pT q = true := by
    rcases hexT with ⟨q, hq, hple⟩
    exact ⟨q, List.mem_reverse.mpr hq, hple⟩
  have hrv : jsFindIndex pT tl.reverse
      = ((tl.reverse.takeWhile (fun q => ! pT q)).length : Int) :=
    jsFindIndex_eq_of_exists pT tl.reverse hexT'
  -- reversed list is sorted for the flipped relation
  have hs' : tl.reverse.Pairwise (fun p q : Int × Int => q.1 ≤ p.1) :=
    List.pairwise_reverse.mpr hs
  have hrevtw : tl.reverse.takeWhile (fun q => ! pT q)
      = tl.reverse.filter (fun q => ! pT q) := by
    refine takeWhile_eq_filter_of_sorted (R := fun p q : Int × Int => q.1 ≤ p.1) ?_ hs'
    intro x y hxy hny
    cases hpx : pT x with
    | false => rfl
    | true =>
      have : pT y = true := hdown y x hxy hpx
      simp [this] at hny
  have hcb : (tl.reverse.takeWhile (fun q => ! pT q)).length
      = (tl.filter (fun q => ! pT q)).length := by
    rw [hrevtw, List.filter_reverse, List.length_reverse]
  set cb := (tl.filter (fun q => ! pT q)).length with hcbdef
  -- sortedness transfers through takeWhile / filter
  have htwT : tl.takeWhile pT = tl.filter pT := by
    refine takeWhile_eq_filter_of_sorted (R := fun p q : Int × Int => p.1 ≤ q.1) ?_ hs
    intro x y hxy hpy
    exact hdown x y hxy hpy
  -- arithmetic: the slice end index is n - cb as a natural number
  have hcb_le : cb ≤ n := by
    rw [hcbdef, hn]
    exact List.length_filter_le _ tl
  have hta_le : ta ≤ n := by
    rw [hta, hn]
    exact (List.takeWhile_sublist _).length_le
  have hsplit : n = (tl.filter pT).length + cb := by
    rw [hcbdef, hn]
    exact List.length_eq_length_filter_add pT
  have hend : (n : Int) - 1 - jsFindIndex pT tl.reverse + 1 = ((n - cb : Nat) : Int) := by
    rw [hrv, hcb]
    omega
  rw [hfi, hend, hta]
  rw [jsSlice_ofNat tl ta (n - cb) hta_le (by omega)]
  -- the take part is the takeWhile by pT
  have hnc : n - cb = (tl.takeWhile pT).length := by
    rw [htwT]
    omega
  rw [hnc, take_length_takeWhile]
  -- the drop count is the takeWhile length of the inner list
  have hinner : (tl.takeWhile pT).takeWhile (fun q => ! pA q)
      = tl.takeWhile (fun q => ! pA q) := by
    rw [List.takeWhile_takeWhile]
    congr 1
    funext q
    cases hq : pA q with
    | true => simp [hq]
    | false =>
      have hqa : q.1 < a := by
        have := hq
        simp [hpA, decide_eq_true_eq] at this
        omega
      simp [hq, hlow q hqa]
  rw [show ta = ((tl.takeWhile pT).takeWhile (fun q => ! pA q)).length from by
    rw [hinner, hta]]
  rw [drop_length_takeWhile]
  -- the inner list is still sorted
  have hsT : (tl.takeWhile pT).Pairwise (fun p q : Int × Int => p.1 ≤ q.1) :=
    List.Pairwise.sublist (List.takeWhile_sublist pT) hs
  have hdw : (tl.takeWhile pT).dropWhile (fun q => ! pA q)
      = (tl.takeWhile pT).filter (fun q => ! ! pA q) := by
    refine dropWhile_eq_filter_not_of_sorted (R := fun p q : Int × Int => p.1 ≤ q.1) ?_ hsT
    intro x y hxy hny
    have hya : y.1 < a := by
      by_contra hc
      rw [hpA] at hny
      simp at hny
      omega
    have hxa : ¬ (a ≤ x.1) := by omega
    rw [hpA]
    simp [hxa]
  rw [hdw]
  have hnn : (fun q : Int × Int => ! ! pA q) = pA := by
    funext q
    exact Bool.not_not (pA q)
  rw [hnn, htwT, List.filter_filter]

theorem truncB_eq_filter (a b : Int) (tl : Timeline) (hs : DateSorted tl)
    (hab : a ≤ b) (hexa : ∃ q ∈ tl, a ≤ q.1) (hexb : ∃ q ∈ tl, q.1 ≤ b) :
    truncB a b tl = winFilter a b tl := by
  unfold truncB winFilter
  simp only []
  refine truncGen_eq_filter a (fun q => decide (q.1 ≤ b)) tl hs ?_ ?_ hexa ?_
  · intro x y hxy hy
    simp only [decide_eq_true_eq] at hy ⊢
    omega
  · intro q hq
    simp only [decide_eq_true_eq]
    omega
  · rcases hexb with ⟨q, hq, hle⟩
    exact ⟨q, hq, by simpa using hle⟩

theorem truncA_eq_filter (a b : Int) (tl : Timeline) (hs : DateSorted tl)
    (hab : a ≤ b) (hexa : ∃ q ∈ tl, a ≤ q.1) (hexb : ∃ q ∈ tl, q.1 < b) :
    truncA a b tl = winFilterStrict a b tl := by
  unfold truncA winFilterStrict
  simp only []
  refine truncGen_eq_filter a (fun q => decide (q.1 < b)) tl hs ?_ ?_ hexa ?_
  · intro x y hxy hy
    simp only [decide_eq_true_eq] at hy ⊢
    omega
  · intro q hq
    simp only [decide_eq_true_eq]
    omega
  · rcases hexb with ⟨q, hq, hle⟩
    exact ⟨q, hq, by simpa using hle⟩

/-! ## Bounds on the computed window -/

theorem headDateD_le_of_sorted (tl : Timeline) (hs : DateSorted tl)
    (q : Int × Int) (hq : q ∈ tl) : headDateD tl ≤ q.1 := by
  unfold DateSorted at hs
  cases tl with
  | nil => cases hq
  | cons x xs =>
    rw [List.pairwise_cons] at hs
    cases List.mem_cons.mp hq with
    | inl he => simp [headDateD, he]
    | inr hm => simpa [headDateD] using hs.1 q hm

theorem le_lastDateD_of_sorted (tl : Timeline) :
    DateSorted tl → ∀ q ∈ tl, q.1 ≤ lastDateD tl := by
  unfold DateSorted
  induction tl with
  | nil => intro _ q hq; cases hq
  | cons x xs ih =>
    intro hs q hq
    rw [List.pairwise_cons] at hs
    cases xs with
    | nil =>
      cases List.mem_singleton.mp hq
      simp [lastDateD]
    | cons y ys =>
      have hlast : lastDateD (x :: y :: ys) = lastDateD (y :: ys) := by
        simp [lastDateD, List.getLast?_cons_cons]
      rw [hlast]
      cases List.mem_cons.mp hq with
      | inl he =>
        have hxy : x.1 ≤ y.1 := hs.1 y (List.mem_cons_self y ys)
        have hy : y.1 ≤ lastDateD (y :: ys) :=
          ih hs.2 y (List.mem_cons_self y ys)
        subst he
        omega
      | inr hm => exact ih hs.2 q hm

theorem headD_mem (tl : Timeline) (h : tl ≠ []) :
    ∃ q ∈ tl, q.1 = headDateD tl := by
  refine ⟨tl.head h, List.head_mem h, ?_⟩
  simp [headDateD, List.head?_eq_head h]

theorem lastD_mem (tl : Timeline) (h : tl ≠ []) :
    ∃ q ∈ tl, q.1 = lastDateD tl := by
  refine ⟨tl.getLast h, List.getLast_mem h, ?_⟩
  simp [lastDateD, List.getLast?_eq_getLast tl h]

theorem le_firstDateOf (t1 t2 t3 : Timeline) :
    headDateD t1 ≤ firstDateOf t1 t2 t3 ∧ headDateD t2 ≤ firstDateOf t1 t2 t3 ∧
      headDateD t3 ≤ firstDateOf t1 t2 t3 := by
  unfold firstDateOf
  omega

theorem firstDateOf_cases (t1 t2 t3 : Timeline) :
    firstDateOf t1 t2 t3 = headDateD t1 ∨ firstDateOf t1 t2 t3 = headDateD t2 ∨
      firstDateOf t1 t2 t3 = headDateD t3 := by
  unfold firstDateOf
  omega

theorem lastDateA_le (t1 t2 t3 : Timeline) :
    lastDateA t1 t2 t3 ≤ lastDateD t1 ∧ lastDateA t1 t2 t3 ≤ lastDateD t2 ∧
      lastDateA t1 t2 t3 ≤ lastDateD t3 := by
  unfold lastDateA
  omega

theorem lastDateA_cases (t1 t2 t3 : Timeline) :
    lastDateA t1 t2 t3 = lastDateD t1 ∨ lastDateA t1 t2 t3 = lastDateD t2 ∨
      lastDateA t1 t2 t3 = lastDateD t3 := by
  unfold lastDateA
  omega

theorem lastDateB_le (now : Int) (t1 t2 t3 : Timeline) :
    lastDateB now t1 t2 t3 ≤ lastDateD t1 ∧ lastDateB now t1 t2 t3 ≤ lastDateD t2 ∧
      lastDateB now t1 t2 t3 ≤ lastDateD t3 ∧ lastDateB now t1 t2 t3 ≤ now := by
  unfold lastDateB
  simp only []
  split_ifs <;> omega

theorem lastDateB_eq_lastDateA (now : Int) (t1 t2 t3 : Timeline)
    (h1 : lastDateD t1 ≤ now) (h2 : lastDateD t2 ≤ now) (h3 : lastDateD t3 ≤ now) :
    lastDateB now t1 t2 t3 = lastDateA t1 t2 t3 := by
  unfold lastDateB lastDateA
  simp only []
  split_ifs <;> omega

/-! ## The running-sum builders -/

theorem runSumAux_length (pt : String → Option Int) :
    ∀ (l : List (String × String)) (c : Int), (runSumAux pt c l).length = l.length := by
  intro l
  induction l with
  | nil => intro c; rfl
  | cons q rest ih =>
    intro c
    simp [runSumAux, ih]

theorem runSumAux_getElem (pt : String → Option Int) :
    ∀ (l : List (String × String)) (c : Int) (i : Nat) (h : i < l.length)
      (h' : i < (runSumAux pt c l).length),
      (runSumAux pt c l)[i] = (parseDateOr0 pt (l[i].1), c + prefixValueSum l i) := by
  intro l
  induction l with
  | nil => intro c i h h'; cases h
  | cons q rest ih =>
    intro c i h h'
    cases i with
    | zero =>
      simp [runSumAux, prefixValueSum]
    | succ j =>
      have hj : j < rest.length := by simpa using h
      have hj' : j < (runSumAux pt (c + orZero q.2) rest).length := by
        rw [runSumAux_length pt rest]
        exact hj
      have := ih (c + orZero q.2) j hj hj'
      simp only [runSumAux, List.getElem_cons_succ]
      rw [this]
      have hpre : prefixValueSum (q :: rest) (j + 1) = orZero q.2 + prefixValueSum rest j := by
        simp [prefixValueSum, List.take_succ_cons]
      rw [hpre, Int.add_assoc]

theorem foldl_orZero_eq_sum (m : List (String × String)) :
    m.foldl (fun sum q => sum + orZero q.2) 0 = (m.map (fun q => orZero q.2)).sum := by
  rw [List.sum_eq_foldl, List.foldl_map]

theorem buildCasesA_eq_runSum (pt : String → Option Int) (csv : List (String × String)) :
    buildCasesA pt csv = runSumAux pt 0 (csv.drop 1) := by
  unfold buildCasesA
  simp only []
  set arr := csv.drop 1 with harr
  refine List.ext_getElem ?_ ?_
  · simp [runSumAux_length, List.enum_length]
  · intro i h1 h2
    have hi : i < arr.length := by simpa [List.enum_length] using h1
    have hi' : i < arr.enum.length := by simpa [List.enum_length] using hi
    rw [List.getElem_map, List.getElem_enum]
    rw [runSumAux_getElem pt arr 0 i hi (by simpa [runSumAux_length] using hi)]
    simp only []
    rw [foldl_orZero_eq_sum]
    have : ((arr.take (i + 1)).map (fun q => orZero q.2)).sum = prefixValueSum arr i := rfl
    rw [this, Int.zero_add]

theorem buildCasesB_foldl (pt : String → Option Int) :
    ∀ (l : List (String × String)) (acc : Timeline) (c : Int),
      (l.foldl
        (fun (acc : Timeline × Int) q =>
          let sum := acc.2 + orZero q.2
          (acc.1 ++ [(parseDateOr0 pt q.1, sum)], sum))
        (acc, c)).1 = acc ++ runSumAux pt c l := by
  intro l
  induction l with
  | nil => intro acc c; simp [runSumAux]
  | cons q rest ih =>
    intro acc c
    simp only [List.foldl_cons]
    rw [ih (acc ++ [(parseDateOr0 pt q.1, c + orZero q.2)]) (c + orZero q.2)]
    simp [runSumAux]

theorem buildCasesB_eq_runSum (pt : String → Option Int) (csv : List (String × String)) :
    buildCasesB pt csv = runSumAux pt 0 (csv.drop 1) := by
  unfold buildCasesB
  rw [buildCasesB_foldl pt (csv.drop 1) [] 0]
  simp

/-! ## Further helpers for the alignment theorems -/

theorem exists_ge_of_last (tl : Timeline) (hn : tl ≠ []) (a : Int)
    (ha : a ≤ lastDateD tl) : ∃ q ∈ tl, a ≤ q.1 := by
  rcases lastD_mem tl hn with ⟨q, hq, he⟩
  exact ⟨q, hq, by omega⟩

theorem exists_le_of_head (tl : Timeline) (hn : tl ≠ []) (c : Int)
    (hc : headDateD tl ≤ c) : ∃ q ∈ tl, q.1 ≤ c := by
  rcases headD_mem tl hn with ⟨q, hq, he⟩
  exact ⟨q, hq, by omega⟩

theorem exists_lt_of_head (tl : Timeline) (hn : tl ≠ []) (c : Int)
    (hc : headDateD tl < c) : ∃ q ∈ tl, q.1 < c := by
  rcases headD_mem tl hn with ⟨q, hq, he⟩
  exact ⟨q, hq, by omega⟩

theorem headDateD_eq_of_map_fst_eq (t1 t2 : Timeline)
    (h : t1.map Prod.fst = t2.map Prod.fst) : headDateD t1 = headDateD t2 := by
  have hh := congrArg List.head? h
  rw [List.head?_map, List.head?_map] at hh
  unfold headDateD
  cases h1 : t1.head? with
  | none =>
    rw [h1] at hh
    cases h2 : t2.head? with
    | none => rfl
    | some q => rw [h2] at hh; simp at hh
  | some p =>
    rw [h1] at hh
    cases h2 : t2.head? with
    | none => rw [h2] at hh; simp at hh
    | some q =>
      rw [h2] at hh
      simp at hh
      simpa using hh

theorem lastDateD_eq_of_map_fst_eq (t1 t2 : Timeline)
    (h : t1.map Prod.fst = t2.map Prod.fst) : lastDateD t1 = lastDateD t2 := by
  have hr : t1.reverse.map Prod.fst = t2.reverse.map Prod.fst := by
    rw [List.map_reverse, List.map_reverse, h]
  have := headDateD_eq_of_map_fst_eq t1.reverse t2.reverse hr
  unfold headDateD at this
  unfold lastDateD
  rwa [List.head?_reverse, List.head?_reverse] at this

theorem headDateD_le_lastDateD (tl : Timeline) (hs : DateSorted tl) (hn : tl ≠ []) :
    headDateD tl ≤ lastDateD tl := by
  rcases headD_mem tl hn with ⟨q, hq, he⟩
  have := le_lastDateD_of_sorted tl hs q hq
  omega

/-! ## Claim theorems -/

/-- C7: `orZero` returns the parsed number whenever the cell parses to a
number (`"12"` yields `12`, negative numeric text such as `"-3"` passes
through as `-3`), returns `0` exactly when the parse is NaN (e.g. `"<5"`
or any other non-numeric text), and never fails (it is a total
function). -/
theorem orZero_parse_policy :
    orZero "12" = 12 ∧ orZero "-3" = -3 ∧ orZero "<5" = 0 ∧
    (∀ s n, jsNumber s = some n → orZero s = n) ∧
    (∀ s, jsNumber s = none → orZero s = 0) := by
  refine ⟨by decide, by decide, by decide, ?_, ?_⟩
  · intro s n h
    unfold orZero
    rw [h]
  · intro s h
    unfold orZero
    rw [h]

theorem orZero_parse_policy_witness :
    jsNumber "7" = some 7 ∧ orZero "7" = 7 :=
  ⟨by decide, orZero_parse_policy.2.2.2.1 "7" 7 (by decide)⟩

/-- C9: for a raw CSV of `n >= 1` rows, each series builder drops the
header row and emits exactly one point per remaining row, so the output
timeline has length `n - 1`. -/
theorem builder_drops_header_length (pt : String → Option Int)
    (csv : List (String × String)) (_h : 1 ≤ csv.length) :
    (buildCasesA pt csv).length = csv.length - 1 ∧
    (buildCasesB pt csv).length = csv.length - 1 ∧
    (buildPlain pt csv).length = csv.length - 1 := by
  refine ⟨?_, ?_, ?_⟩
  · rw [buildCasesA_eq_runSum, runSumAux_length, List.length_drop]
  · rw [buildCasesB_eq_runSum, runSumAux_length, List.length_drop]
  · unfold buildPlain
    rw [List.length_map, List.length_drop]

theorem builder_drops_header_length_witness :
    1 ≤ ([("d", "v"), ("1", "5"), ("2", "3")] : List (String × String)).length ∧
    (buildCasesA jsNumber [("d", "v"), ("1", "5"), ("2", "3")]).length = 2 :=
  ⟨by decide,
   (builder_drops_header_length jsNumber [("d", "v"), ("1", "5"), ("2", "3")]
     (by decide)).1⟩

/-- C10: the two cumulative-sum implementations for the cases series —
variant A's per-index slice-and-reduce and variant B's single-pass
accumulating reduce — produce identical timelines on every parsed CSV
(same dates, same values, same order). -/
theorem cases_builders_equivalent (pt : String → Option Int)
    (csv : List (String × String)) :
    buildCasesA pt csv = buildCasesB pt csv := by
  rw [buildCasesA_eq_runSum, buildCasesB_eq_runSum]

/-- C8: when fewer than three recognized series entries are supplied,
both iterations of the assembler reject (`none`) and produce no
`Data` record, partial or otherwise. -/
theorem assembler_requires_three_series (pt : String → Option Int) (now : Int)
    (entries : List (String × List (String × String)))
    (hA : (entries.filterMap (recognizeA pt)).length < 3)
    (hB : (entries.filterMap (recognizeB pt)).length < 3) :
    fetchDataA pt entries = none ∧ fetchDataB pt now entries = none := by
  constructor
  · unfold fetchDataA
    rcases hl : entries.filterMap (recognizeA pt) with _ | ⟨a, _ | ⟨b, _ | ⟨c, _ | ⟨d, t⟩⟩⟩⟩ <;>
      first
        | rfl
        | (exfalso; rw [hl] at hA; simp at hA)
  · unfold fetchDataB
    rcases hl : entries.filterMap (recognizeB pt) with _ | ⟨a, _ | ⟨b, _ | ⟨c, _ | ⟨d, t⟩⟩⟩⟩ <;>
      first
        | rfl
        | (exfalso; rw [hl] at hB; simp at hB)

theorem assembler_requires_three_series_witness :
    (([("CovidFaelle_Epikurve.csv", [(("Datum" : String), ("Anzahl" : String)), ("1", "5")]),
       ("GenesenTimeline.csv", [("Datum", "Anzahl"), ("1", "2")])] :
        List (String × List (String × String))).filterMap (recognizeA jsNumber)).length < 3 ∧
    fetchDataA jsNumber
      [("CovidFaelle_Epikurve.csv", [("Datum", "Anzahl"), ("1", "5")]),
       ("GenesenTimeline.csv", [("Datum", "Anzahl"), ("1", "2")])] = none :=
  ⟨by decide,
   (assembler_requires_three_series jsNumber 0
     [("CovidFaelle_Epikurve.csv", [("Datum", "Anzahl"), ("1", "5")]),
      ("GenesenTimeline.csv", [("Datum", "Anzahl"), ("1", "2")])]
     (by decide) (by decide)).1⟩

/-- C2: the disjoint-window input from the specification (cases and
recovered span days 1–5, deaths days 10–15).  The computed window is
empty (`firstDate = 10 > 5 = lastDate`), yet variant A's assembler
resolves successfully with a `Data` record — empty cases and recovered
timelines next to six deaths points — instead of failing: no
`AlignmentError` (or any empty-window check) exists in the code, and the
unequal lengths only blow up later in `draw`'s `"lengths unequal"`
assertion. -/
theorem disjoint_series_no_alignment_error :
    fetchDataA jsNumber
      [("CovidFaelle_Epikurve.csv",
        [("Datum", "Anzahl"), ("1", "1"), ("2", "1"), ("3", "1"), ("4", "1"), ("5", "1")]),
       ("GenesenTimeline.csv",
        [("Datum", "Anzahl"), ("1", "1"), ("2", "1"), ("3", "1"), ("4", "1"), ("5", "1")]),
       ("TodesfaelleTimeline.csv",
        [("Datum", "Anzahl"), ("10", "1"), ("11", "1"), ("12", "1"), ("13", "1"),
         ("14", "1"), ("15", "1")])] =
      some ⟨[], [], [(10, 1), (11, 1), (12, 1), (13, 1), (14, 1), (15, 1)]⟩ := by
  decide

/-- C5: a valid input (each timeline sorted, one point per day) with the
non-empty single-day common window `[3, 3]`: variant A's aligner
resolves with timelines of lengths 3, 0, 0 — violating the equal-length,
identical-dates invariant that `draw` asserts downstream. -/
theorem single_day_window_unequal_lengths :
    firstDateOf [(3, 1), (4, 1), (5, 1)] [(1, 1), (2, 1), (3, 1)] [(1, 1), (2, 1), (3, 1)] = 3 ∧
    lastDateA [(3, 1), (4, 1), (5, 1)] [(1, 1), (2, 1), (3, 1)] [(1, 1), (2, 1), (3, 1)] = 3 ∧
    alignA [(3, 1), (4, 1), (5, 1)] [(1, 1), (2, 1), (3, 1)] [(1, 1), (2, 1), (3, 1)] =
      ([(3, 1), (4, 1), (5, 1)], [], []) := by
  decide

/-- C1 counterexample: three identical sorted timelines over days 1–3.
The window is `[1, 3]` and the point dated `3` lies inside it, yet
variant A's truncation (strict `<` against `lastDate` on the reverse
scan) drops it from every output. -/
theorem alignA_drops_lastDate_point :
    firstDateOf [(1, 10), (2, 20), (3, 30)] [(1, 10), (2, 20), (3, 30)] [(1, 10), (2, 20), (3, 30)] ≤ 3 ∧
    3 ≤ lastDateA [(1, 10), (2, 20), (3, 30)] [(1, 10), (2, 20), (3, 30)] [(1, 10), (2, 20), (3, 30)] ∧
    ((3 : Int), (30 : Int)) ∈ ([(1, 10), (2, 20), (3, 30)] : Timeline) ∧
    ((3 : Int), (30 : Int)) ∉
      (alignA [(1, 10), (2, 20), (3, 30)] [(1, 10), (2, 20), (3, 30)] [(1, 10), (2, 20), (3, 30)]).1 := by
  decide

/-- C4 counterexample: three timelines all ending on day `5`, so the
minimum of the last dates is `5`; but variant B folds the current date
(`now`, here `0`) into the minimum and returns `0` instead. -/
theorem lastDateB_ignores_min_of_lasts :
    lastDateA [(5, 1)] [(5, 2)] [(5, 3)] = 5 ∧
    lastDateB 0 [(5, 1)] [(5, 2)] [(5, 3)] = 0 := by
  decide

/-- C6 counterexample: three identical (hence already aligned) sorted
timelines over days 1–3 are not returned unchanged by variant A's
aligner — the trailing day-3 points are dropped, so alignment is not a
fixed point. -/
theorem alignA_not_idempotent :
    alignA [(1, 10), (2, 20), (3, 30)] [(1, 11), (2, 21), (3, 31)] [(1, 12), (2, 22), (3, 32)] ≠
      ([(1, 10), (2, 20), (3, 30)], [(1, 11), (2, 21), (3, 31)], [(1, 12), (2, 22), (3, 32)]) := by
  decide

/-- C3: with the needs-running-sum flag (the cases series), both builder
iterations emit at index `i` the sum of the zero-substituted source
values of rows `0..i` (of the header-less sequence); in particular the
incremental fixture `[5, 3, 0, 7]` yields `[5, 8, 8, 15]`. -/
theorem cases_running_sum (pt : String → Option Int) (csv : List (String × String)) :
    (∀ (i : Nat) (h : i < (buildCasesA pt csv).length),
      ((buildCasesA pt csv).get ⟨i, h⟩).2 = prefixValueSum (csv.drop 1) i) ∧
    (∀ (i : Nat) (h : i < (buildCasesB pt csv).length),
      ((buildCasesB pt csv).get ⟨i, h⟩).2 = prefixValueSum (csv.drop 1) i) ∧
    (buildCasesA jsNumber
      [("d", "v"), ("1", "5"), ("2", "3"), ("3", "0"), ("4", "7")]).map Prod.snd =
      [5, 8, 8, 15] := by
  have he := buildCasesA_eq_runSum pt csv
  have hb := buildCasesB_eq_runSum pt csv
  refine ⟨?_, ?_, by decide⟩
  · intro i h
    have h2 : i < (runSumAux pt 0 (csv.drop 1)).length := by rw [← he]; exact h
    have hlen : i < (csv.drop 1).length := by
      rw [runSumAux_length] at h2; exact h2
    rw [List.get_eq_getElem]
    simp only [he]
    rw [runSumAux_getElem pt (csv.drop 1) 0 i hlen h2]
    simp
  · intro i h
    have h2 : i < (runSumAux pt 0 (csv.drop 1)).length := by rw [← hb]; exact h
    have hlen : i < (csv.drop 1).length := by
      rw [runSumAux_length] at h2; exact h2
    rw [List.get_eq_getElem]
    simp only [hb]
    rw [runSumAux_getElem pt (csv.drop 1) 0 i hlen h2]
    simp

theorem cases_running_sum_witness :
    2 < (buildCasesA jsNumber [("d", "v"), ("1", "5"), ("2", "3"), ("3", "0"), ("4", "7")]).length ∧
    ((buildCasesA jsNumber [("d", "v"), ("1", "5"), ("2", "3"), ("3", "0"), ("4", "7")]).get
      ⟨2, by decide⟩).2 =
      prefixValueSum ([("d", "v"), ("1", "5"), ("2", "3"), ("3", "0"), ("4", "7")].drop 1) 2 :=
  ⟨by decide,
   (cases_running_sum jsNumber
     [("d", "v"), ("1", "5"), ("2", "3"), ("3", "0"), ("4", "7")]).1 2 (by decide)⟩

/-- C1 (amended): on date-sorted nonempty timelines, variant B's aligner
truncates each timeline to exactly the points dated within
`[firstDate, lastDate]` inclusive of both endpoints (whenever the window
is non-empty), while variant A's aligner keeps exactly the points dated
within the half-open `[firstDate, lastDate)` — the points dated
`lastDate` itself are dropped (stated here for windows with
`firstDate < lastDate`). -/
theorem aligner_truncates_to_window (now : Int) (t1 t2 t3 : Timeline)
    (hs1 : DateSorted t1) (hs2 : DateSorted t2) (hs3 : DateSorted t3)
    (hn1 : t1 ≠ []) (hn2 : t2 ≠ []) (hn3 : t3 ≠ []) :
    (firstDateOf t1 t2 t3 ≤ lastDateB now t1 t2 t3 →
      alignB now t1 t2 t3 =
        (winFilter (firstDateOf t1 t2 t3) (lastDateB now t1 t2 t3) t1,
         winFilter (firstDateOf t1 t2 t3) (lastDateB now t1 t2 t3) t2,
         winFilter (firstDateOf t1 t2 t3) (lastDateB now t1 t2 t3) t3)) ∧
    (firstDateOf t1 t2 t3 < lastDateA t1 t2 t3 →
      alignA t1 t2 t3 =
        (winFilterStrict (firstDateOf t1 t2 t3) (lastDateA t1 t2 t3) t1,
         winFilterStrict (firstDateOf t1 t2 t3) (lastDateA t1 t2 t3) t2,
         winFilterStrict (firstDateOf t1 t2 t3) (lastDateA t1 t2 t3) t3)) := by
  have hf := le_firstDateOf t1 t2 t3
  have hlA := lastDateA_le t1 t2 t3
  have hlB := lastDateB_le now t1 t2 t3
  constructor
  · intro hwin
    have hx1 : ∃ q ∈ t1, firstDateOf t1 t2 t3 ≤ q.1 :=
      exists_ge_of_last t1 hn1 _ (by omega)
    have hx2 : ∃ q ∈ t2, firstDateOf t1 t2 t3 ≤ q.1 :=
      exists_ge_of_last t2 hn2 _ (by omega)
    have hx3 : ∃ q ∈ t3, firstDateOf t1 t2 t3 ≤ q.1 :=
      exists_ge_of_last t3 hn3 _ (by omega)
    have hy1 : ∃ q ∈ t1, q.1 ≤ lastDateB now t1 t2 t3 :=
      exists_le_of_head t1 hn1 _ (by omega)
    have hy2 : ∃ q ∈ t2, q.1 ≤ lastDateB now t1 t2 t3 :=
      exists_le_of_head t2 hn2 _ (by omega)
    have hy3 : ∃ q ∈ t3, q.1 ≤ lastDateB now t1 t2 t3 :=
      exists_le_of_head t3 hn3 _ (by omega)
    unfold alignB
    simp only []
    rw [truncB_eq_filter _ _ t1 hs1 hwin hx1 hy1,
        truncB_eq_filter _ _ t2 hs2 hwin hx2 hy2,
        truncB_eq_filter _ _ t3 hs3 hwin hx3 hy3]
  · intro hwin
    have hwin' : firstDateOf t1 t2 t3 ≤ lastDateA t1 t2 t3 := le_of_lt hwin
    have hx1 : ∃ q ∈ t1, firstDateOf t1 t2 t3 ≤ q.1 :=
      exists_ge_of_last t1 hn1 _ (by omega)
    have hx2 : ∃ q ∈ t2, firstDateOf t1 t2 t3 ≤ q.1 :=
      exists_ge_of_last t2 hn2 _ (by omega)
    have hx3 : ∃ q ∈ t3, firstDateOf t1 t2 t3 ≤ q.1 :=
      exists_ge_of_last t3 hn3 _ (by omega)
    have hy1 : ∃ q ∈ t1, q.1 < lastDateA t1 t2 t3 :=
      exists_lt_of_head t1 hn1 _ (by omega)
    have hy2 : ∃ q ∈ t2, q.1 < lastDateA t1 t2 t3 :=
      exists_lt_of_head t2 hn2 _ (by omega)
    have hy3 : ∃ q ∈ t3, q.1 < lastDateA t1 t2 t3 :=
      exists_lt_of_head t3 hn3 _ (by omega)
    unfold alignA
    simp only []
    rw [truncA_eq_filter _ _ t1 hs1 hwin' hx1 hy1,
        truncA_eq_filter _ _ t2 hs2 hwin' hx2 hy2,
        truncA_eq_filter _ _ t3 hs3 hwin' hx3 hy3]

theorem aligner_truncates_to_window_witness :
    alignB 100 [(1, 10), (2, 20), (3, 30)] [(2, 5), (3, 6), (4, 7)]
        [(1, 1), (2, 2), (3, 3), (4, 4)] =
      (winFilter
        (firstDateOf [(1, 10), (2, 20), (3, 30)] [(2, 5), (3, 6), (4, 7)]
          [(1, 1), (2, 2), (3, 3), (4, 4)])
        (lastDateB 100 [(1, 10), (2, 20), (3, 30)] [(2, 5), (3, 6), (4, 7)]
          [(1, 1), (2, 2), (3, 3), (4, 4)])
        [(1, 10), (2, 20), (3, 30)],
       winFilter
        (firstDateOf [(1, 10), (2, 20), (3, 30)] [(2, 5), (3, 6), (4, 7)]
          [(1, 1), (2, 2), (3, 3), (4, 4)])
        (lastDateB 100 [(1, 10), (2, 20), (3, 30)] [(2, 5), (3, 6), (4, 7)]
          [(1, 1), (2, 2), (3, 3), (4, 4)])
        [(2, 5), (3, 6), (4, 7)],
       winFilter
        (firstDateOf [(1, 10), (2, 20), (3, 30)] [(2, 5), (3, 6), (4, 7)]
          [(1, 1), (2, 2), (3, 3), (4, 4)])
        (lastDateB 100 [(1, 10), (2, 20), (3, 30)] [(2, 5), (3, 6), (4, 7)]
          [(1, 1), (2, 2), (3, 3), (4, 4)])
        [(1, 1), (2, 2), (3, 3), (4, 4)]) :=
  (aligner_truncates_to_window 100 [(1, 10), (2, 20), (3, 30)] [(2, 5), (3, 6), (4, 7)]
    [(1, 1), (2, 2), (3, 3), (4, 4)]
    (by decide) (by decide) (by decide) (by decide) (by decide) (by decide)).1 (by decide)

/-- C4 (amended): on three non-empty timelines, `firstDate` is the
maximum of the three first dates in both variants, and variant A's
`lastDate` is the minimum of the three last dates; variant B folds the
current date into that minimum, so it equals the minimum of the last
dates only under the additional hypothesis that no series ends after the
current date. -/
theorem window_endpoints_characterization (now : Int) (t1 t2 t3 : Timeline)
    (_hn1 : t1 ≠ []) (_hn2 : t2 ≠ []) (_hn3 : t3 ≠ [])
    (h1 : lastDateD t1 ≤ now) (h2 : lastDateD t2 ≤ now) (h3 : lastDateD t3 ≤ now) :
    (headDateD t1 ≤ firstDateOf t1 t2 t3 ∧ headDateD t2 ≤ firstDateOf t1 t2 t3 ∧
      headDateD t3 ≤ firstDateOf t1 t2 t3 ∧
      (firstDateOf t1 t2 t3 = headDateD t1 ∨ firstDateOf t1 t2 t3 = headDateD t2 ∨
        firstDateOf t1 t2 t3 = headDateD t3)) ∧
    (lastDateA t1 t2 t3 ≤ lastDateD t1 ∧ lastDateA t1 t2 t3 ≤ lastDateD t2 ∧
      lastDateA t1 t2 t3 ≤ lastDateD t3 ∧
      (lastDateA t1 t2 t3 = lastDateD t1 ∨ lastDateA t1 t2 t3 = lastDateD t2 ∨
        lastDateA t1 t2 t3 = lastDateD t3)) ∧
    lastDateB now t1 t2 t3 = lastDateA t1 t2 t3 := by
  refine ⟨⟨(le_firstDateOf t1 t2 t3).1, (le_firstDateOf t1 t2 t3).2.1,
      (le_firstDateOf t1 t2 t3).2.2, firstDateOf_cases t1 t2 t3⟩,
    ⟨(lastDateA_le t1 t2 t3).1, (lastDateA_le t1 t2 t3).2.1,
      (lastDateA_le t1 t2 t3).2.2, lastDateA_cases t1 t2 t3⟩,
    lastDateB_eq_lastDateA now t1 t2 t3 h1 h2 h3⟩

theorem window_endpoints_characterization_witness :
    lastDateB 100 [(1, 10), (2, 20)] [(2, 5), (3, 6)] [(1, 1), (4, 2)] =
      lastDateA [(1, 10), (2, 20)] [(2, 5), (3, 6)] [(1, 1), (4, 2)] :=
  (window_endpoints_characterization 100 [(1, 10), (2, 20)] [(2, 5), (3, 6)] [(1, 1), (4, 2)]
    (by decide) (by decide) (by decide) (by decide) (by decide) (by decide)).2.2

/-- C6 (amended): variant B's aligner is a fixed point on three already
aligned timelines (equal date sequences, each sorted and non-empty)
provided their common last date is not after the current date; variant A
is not idempotent — its strict trailing comparison drops the points
dated `lastDate` on every run (see the counterexample). -/
theorem alignB_fixed_point (now : Int) (t1 t2 t3 : Timeline)
    (hs1 : DateSorted t1) (hs2 : DateSorted t2) (hs3 : DateSorted t3)
    (hn1 : t1 ≠ []) (hn2 : t2 ≠ []) (hn3 : t3 ≠ [])
    (hd2 : t1.map Prod.fst = t2.map Prod.fst)
    (hd3 : t1.map Prod.fst = t3.map Prod.fst)
    (hnow : lastDateD t1 ≤ now) :
    alignB now t1 t2 t3 = (t1, t2, t3) := by
  have hhd2 := headDateD_eq_of_map_fst_eq t1 t2 hd2
  have hhd3 := headDateD_eq_of_map_fst_eq t1 t3 hd3
  have hld2 := lastDateD_eq_of_map_fst_eq t1 t2 hd2
  have hld3 := lastDateD_eq_of_map_fst_eq t1 t3 hd3
  have hhl1 := headDateD_le_lastDateD t1 hs1 hn1
  have haval : firstDateOf t1 t2 t3 = headDateD t1 := by
    unfold firstDateOf
    omega
  have hbval : lastDateB now t1 t2 t3 = lastDateD t1 := by
    unfold lastDateB
    simp only []
    split_ifs <;> omega
  have hwin : firstDateOf t1 t2 t3 ≤ lastDateB now t1 t2 t3 := by omega
  have hfix : ∀ (t : Timeline), DateSorted t →
      firstDateOf t1 t2 t3 ≤ headDateD t → lastDateD t ≤ lastDateB now t1 t2 t3 →
      winFilter (firstDateOf t1 t2 t3) (lastDateB now t1 t2 t3) t = t := by
    intro t hst hha hhb
    unfold winFilter
    apply List.filter_eq_self.mpr
    intro q hq
    have hge := headDateD_le_of_sorted t hst q hq
    have hle := le_lastDateD_of_sorted t hst q hq
    simp only [Bool.and_eq_true, decide_eq_true_eq]
    omega
  have hx1 : ∃ q ∈ t1, firstDateOf t1 t2 t3 ≤ q.1 :=
    exists_ge_of_last t1 hn1 _ (by omega)
  have hx2 : ∃ q ∈ t2, firstDateOf t1 t2 t3 ≤ q.1 :=
    exists_ge_of_last t2 hn2 _ (by omega)
  have hx3 : ∃ q ∈ t3, firstDateOf t1 t2 t3 ≤ q.1 :=
    exists_ge_of_last t3 hn3 _ (by omega)
  have hy1 : ∃ q ∈ t1, q.1 ≤ lastDateB now t1 t2 t3 :=
    exists_le_of_head t1 hn1 _ (by omega)
  have hy2 : ∃ q ∈ t2, q.1 ≤ lastDateB now t1 t2 t3 :=
    exists_le_of_head t2 hn2 _ (by omega)
  have hy3 : ∃ q ∈ t3, q.1 ≤ lastDateB now t1 t2 t3 :=
    exists_le_of_head t3 hn3 _ (by omega)
  unfold alignB
  simp only []
  rw [truncB_eq_filter _ _ t1 hs1 hwin hx1 hy1,
      truncB_eq_filter _ _ t2 hs2 hwin hx2 hy2,
      truncB_eq_filter _ _ t3 hs3 hwin hx3 hy3]
  rw [hfix t1 hs1 (by omega) (by omega),
      hfix t2 hs2 (by omega) (by omega),
      hfix t3 hs3 (by omega) (by omega)]

theorem alignB_fixed_point_witness :
    alignB 100 [(1, 10), (2, 20)] [(1, 5), (2, 6)] [(1, 7), (2, 8)] =
      ([(1, 10), (2, 20)], [(1, 5), (2, 6)], [(1, 7), (2, 8)]) :=
  alignB_fixed_point 100 [(1, 10), (2, 20)] [(1, 5), (2, 6)] [(1, 7), (2, 8)]
    (by decide) (by decide) (by decide) (by decide) (by decide) (by decide)
    (by decide) (by decide) (by decide)
